import Mathlib

/-!
Verification of the execution-control decorators in `deco.py`.

Each decorator is shallowly embedded: Python exceptions become an explicit
`Except PyExc` result, the mutable state a wrapper owns (the memoize cache,
the singleton `ran` flag, the process RLIMIT_AS pair) is passed explicitly,
and where a claim is about how many times the inner unit of work is invoked,
the embedding additionally returns that invocation count.
-/

set_option autoImplicit false

/-- A Python exception value, identified by its kind and message, as raised by
the decorators in `deco.py` (plain `Exception(msg)`, `TimeoutError`, and the
`MemoryError` the platform raises when the RLIMIT_AS ceiling is crossed). -/
inductive PyExc where
  | exception (msg : String)
  | timeoutError (msg : String)
  | memoryError
deriving DecidableEq, Repr

/-- Outcome of invoking a unit of work: a value or a raised exception. -/
abbrev PyResult (T : Type) := Except PyExc T

/-! ## Memoizer (`memoize`, deco.py lines 50-66) -/

/-- Lookup in the cache, modelling the Python dict operations
`args in cache` / `cache[args]`: the most recently inserted binding for a key
is the one found. -/
def cacheLookup {κ T : Type} [DecidableEq κ] : List (κ × T) → κ → Option T
  | [], _ => none
  | (k, v) :: rest, q => if q = k then some v else cacheLookup rest q

/-- One call of the wrapper produced by `memoize` (deco.py lines 60-65),
translated to explicit state passing: given the inner unit `func`, the current
`cache` and the call key `args`, it returns the call's outcome, the cache after
the call, and how many times the inner unit was invoked during the call
(0 on a hit, 1 on a miss).  On a miss the inner unit is invoked; if it raises,
the exception propagates before the line `cache[args] = result` runs, so the
cache is unchanged. -/
def memoize {κ T : Type} [DecidableEq κ] (func : κ → PyResult T)
    (cache : List (κ × T)) (args : κ) : PyResult T × List (κ × T) × Nat :=
  match cacheLookup cache args with
  | some v => (.ok v, cache, 0)
  | none =>
    match func args with
    | .ok result => (.ok result, (args, result) :: cache, 1)
    | .error e => (.error e, cache, 1)

/-- C2: the first call with key `k` (key absent) invokes the inner unit exactly
once, returns its result and stores it; every subsequent call with an equal key
(key present with the stored value) returns the identical stored value, leaves
the cache unchanged and invokes the inner unit zero times. -/
theorem memoize_first_hit_spec {κ T : Type} [DecidableEq κ]
    (func : κ → PyResult T) (cache : List (κ × T)) (k : κ) (v : T) :
    (cacheLookup cache k = none → func k = .ok v →
      memoize func cache k = (.ok v, (k, v) :: cache, 1) ∧
      cacheLookup ((k, v) :: cache) k = some v) ∧
    (cacheLookup cache k = some v → memoize func cache k = (.ok v, cache, 0)) := by
  constructor
  · intro hmiss hok
    constructor
    · simp [memoize, hmiss, hok]
    · simp [cacheLookup]
  · intro hhit
    simp [memoize, hhit]

/-- Witness for C2 at a concrete input: key `0` absent from the empty cache,
inner unit returning `1`; the second conjunct is then exercised on the cache
produced by the first call. -/
theorem memoize_first_hit_spec_witness :
    (memoize (fun n : Nat => (.ok (n + 1) : PyResult Nat)) [] 0
      = (.ok 1, [(0, 1)], 1)) ∧
    (memoize (fun n : Nat => (.ok (n + 1) : PyResult Nat)) [(0, 1)] 0
      = (.ok 1, [(0, 1)], 0)) :=
  ⟨((memoize_first_hit_spec (fun n : Nat => (.ok (n + 1) : PyResult Nat)) [] 0 1).1
      rfl rfl).1,
   (memoize_first_hit_spec (fun n : Nat => (.ok (n + 1) : PyResult Nat)) [(0, 1)] 0 1).2
      (by decide)⟩

/-- C3: if the inner unit raises on a cache miss, the failure propagates, the
cache is unchanged (the key stays absent), and a subsequent call with the same
key invokes the inner unit again — failures are never cached. -/
theorem memoize_no_fail_caching {κ T : Type} [DecidableEq κ]
    (func : κ → PyResult T) (cache : List (κ × T)) (k : κ) (e : PyExc)
    (hmiss : cacheLookup cache k = none) (hfail : func k = .error e) :
    memoize func cache k = (.error e, cache, 1) ∧
    memoize func (memoize func cache k).2.1 k = (.error e, cache, 1) := by
  have h1 : memoize func cache k = (.error e, cache, 1) := by
    simp [memoize, hmiss, hfail]
  refine ⟨h1, ?_⟩
  rw [h1]
  simp [memoize, hmiss, hfail]

/-- Witness for C3 at a concrete input: key `0` absent, inner unit always
raising `Exception "boom"`; both the failing call and the retry after it are
evaluated. -/
theorem memoize_no_fail_caching_witness :
    memoize (fun _ : Nat => (.error (.exception "boom") : PyResult Nat)) [] 0
      = (.error (.exception "boom"), [], 1) ∧
    memoize (fun _ : Nat => (.error (.exception "boom") : PyResult Nat))
        (memoize (fun _ : Nat => (.error (.exception "boom") : PyResult Nat)) [] 0).2.1 0
      = (.error (.exception "boom"), [], 1) :=
  memoize_no_fail_caching (fun _ : Nat => (.error (.exception "boom") : PyResult Nat))
    [] 0 (.exception "boom") rfl rfl

/-! ## Retrier (`retry_on_failure`, deco.py lines 69-89) -/

/-- The loop body of the wrapper produced by `retry_on_failure` (deco.py lines
82-87), translated with the remaining iteration count made structural: at loop
index `i` with `r + 1` iterations remaining (so `r = 0` exactly when
`i == runs - 1`), attempt `func i`; on success return its value; on failure
re-raise if this was the last iteration, otherwise continue.  `func i` is the
outcome of the (i+1)-th attempt of the inner unit.  The result also carries the
number of times the inner unit was invoked; the `Option` models that the Python
wrapper falls off the loop and returns `None` when `runs = 0`. -/
def retryRunC {T : Type} (func : Nat → PyResult T) :
    Nat → Nat → PyResult (Option T) × Nat
  | 0, _ => (.ok none, 0)
  | r + 1, i =>
    match func i with
    | .ok v => (.ok (some v), 1)
    | .error e =>
      if r = 0 then (.error e, 1)
      else
        let rest := retryRunC func r (i + 1)
        (rest.1, rest.2 + 1)

/-- One call of the wrapper produced by `retry_on_failure runs`: the value
returned (or exception raised). -/
def retry_on_failure {T : Type} (runs : Nat) (func : Nat → PyResult T) :
    PyResult (Option T) :=
  (retryRunC func runs 0).1

/-- Number of times one call of the wrapper produced by `retry_on_failure runs`
invokes the inner unit. -/
def retryInvocations {T : Type} (runs : Nat) (func : Nat → PyResult T) : Nat :=
  (retryRunC func runs 0).2

theorem retryRunC_ok {T : Type} (func : Nat → PyResult T) :
    ∀ (k r i : Nat) (v : T), k < r →
      (∀ j, j < k → ∃ e, func (i + j) = .error e) →
      func (i + k) = .ok v →
      retryRunC func r i = (.ok (some v), k + 1) := by
  intro k
  induction k with
  | zero =>
    intro r i v hk _ hok
    obtain ⟨r', rfl⟩ : ∃ r', r = r' + 1 := ⟨r - 1, (Nat.succ_pred_eq_of_pos hk).symm⟩
    simp only [Nat.add_zero] at hok
    simp [retryRunC, hok]
  | succ k ih =>
    intro r i v hk hfail hok
    obtain ⟨r', rfl⟩ : ∃ r', r = r' + 1 :=
      ⟨r - 1, (Nat.succ_pred_eq_of_pos (Nat.lt_of_le_of_lt (Nat.zero_le _) hk)).symm⟩
    obtain ⟨e0, he0⟩ := hfail 0 (Nat.succ_pos k)
    simp only [Nat.add_zero] at he0
    have hr' : r' ≠ 0 := by
      intro h
      subst h
      exact absurd hk (by omega)
    have hrec : retryRunC func r' (i + 1) = (.ok (some v), k + 1) := by
      apply ih r' (i + 1) v (by omega)
      · intro j hj
        obtain ⟨e, he⟩ := hfail (j + 1) (by omega)
        exact ⟨e, by rw [show i + 1 + j = i + (j + 1) by omega]; exact he⟩
      · rw [show i + 1 + k = i + (k + 1) by omega]; exact hok
    simp [retryRunC, he0, hr', hrec]

theorem retryRunC_allfail {T : Type} (func : Nat → PyResult T) :
    ∀ (r i : Nat) (e : PyExc), 1 ≤ r →
      (∀ j, j < r → ∃ d, func (i + j) = .error d) →
      func (i + (r - 1)) = .error e →
      retryRunC func r i = (.error e, r) := by
  intro r
  induction r with
  | zero => intro i e h; omega
  | succ r' ih =>
    intro i e _ hfail hlast
    by_cases hr' : r' = 0
    · subst hr'
      have hlast' : func i = .error e := by simpa using hlast
      simp [retryRunC, hlast']
    · obtain ⟨e0, he0⟩ := hfail 0 (Nat.succ_pos r')
      simp only [Nat.add_zero] at he0
      have hrec : retryRunC func r' (i + 1) = (.error e, r') := by
        apply ih (i + 1) e (Nat.one_le_iff_ne_zero.mpr hr')
        · intro j hj
          obtain ⟨d, hd⟩ := hfail (j + 1) (by omega)
          exact ⟨d, by rw [show i + 1 + j = i + (j + 1) by omega]; exact hd⟩
        · rw [show i + 1 + (r' - 1) = i + (r' + 1 - 1) by omega]; exact hlast
      simp [retryRunC, he0, hr', hrec]

theorem retryRunC_le {T : Type} (func : Nat → PyResult T) :
    ∀ (r i : Nat), (retryRunC func r i).2 ≤ r := by
  intro r
  induction r with
  | zero => intro i; simp [retryRunC]
  | succ r' ih =>
    intro i
    simp only [retryRunC]
    match hf : func i with
    | .ok v => simp
    | .error e =>
      by_cases hr' : r' = 0
      · simp [hr']
      · simpa [hr'] using Nat.succ_le_succ (ih (i + 1))

/-- C1: with retry budget `runs ≥ 1`, a call of the retried unit attempts the
inner unit at most `runs` times; if attempts `1..i` fail (0-based indices
`< i`) and attempt `i+1` (0-based index `i ≤ runs - 1`) succeeds with `v`, the
call returns `v` after exactly `i + 1` invocations; if all `runs` attempts
fail, the call raises the failure of the final attempt unchanged after exactly
`runs` invocations. -/
theorem retry_on_failure_spec {T : Type} (runs : Nat) (h : 1 ≤ runs)
    (func : Nat → PyResult T) :
    retryInvocations runs func ≤ runs ∧
    (∀ i v, i < runs → (∀ j, j < i → ∃ e, func j = .error e) → func i = .ok v →
      retry_on_failure runs func = .ok (some v) ∧
      retryInvocations runs func = i + 1) ∧
    (∀ e, (∀ j, j < runs → ∃ d, func j = .error d) → func (runs - 1) = .error e →
      retry_on_failure runs func = .error e ∧
      retryInvocations runs func = runs) := by
  refine ⟨retryRunC_le func runs 0, ?_, ?_⟩
  · intro i v hi hfail hok
    have := retryRunC_ok func i runs 0 v hi
      (by intro j hj; simpa using hfail j hj) (by simpa using hok)
    exact ⟨by simp [retry_on_failure, this], by simp [retryInvocations, this]⟩
  · intro e hfail hlast
    have := retryRunC_allfail func runs 0 e h
      (by intro j hj; simpa using hfail j hj) (by simpa using hlast)
    exact ⟨by simp [retry_on_failure, this], by simp [retryInvocations, this]⟩

/-- Witness for C1 at concrete inputs with `runs = 3`: an inner unit failing on
attempts 1-2 and succeeding on attempt 3 yields success after 3 invocations;
an always-failing inner unit yields the final failure after exactly 3
invocations. -/
theorem retry_on_failure_spec_witness :
    (retry_on_failure 3 (fun i => if i < 2 then .error (.exception "boom")
        else (.ok 7 : PyResult Nat)) = .ok (some 7) ∧
      retryInvocations 3 (fun i => if i < 2 then .error (.exception "boom")
        else (.ok 7 : PyResult Nat)) = 3) ∧
    (retry_on_failure 3 (fun _ => (.error (.exception "boom") : PyResult Nat))
        = .error (.exception "boom") ∧
      retryInvocations 3 (fun _ => (.error (.exception "boom") : PyResult Nat)) = 3) :=
  ⟨(retry_on_failure_spec 3 (by decide)
      (fun i => if i < 2 then .error (.exception "boom") else (.ok 7 : PyResult Nat))).2.1
      2 7 (by decide)
      (by intro j hj; exact ⟨.exception "boom", by interval_cases j <;> rfl⟩)
      rfl,
   (retry_on_failure_spec 3 (by decide)
      (fun _ => (.error (.exception "boom") : PyResult Nat))).2.2
      (.exception "boom")
      (by intro j hj; exact ⟨.exception "boom", rfl⟩)
      rfl⟩

/-! ## Singleton Guard (`singleton`, deco.py lines 174-194) -/

/-- The exception `Wrapper.__call__` raises on a repeat call
(deco.py line 190). -/
def alreadyExecuted : PyExc := .exception "This function has already been run"

/-- One call of the `Wrapper` object produced by `singleton` (deco.py lines
188-192), with the object's `self.ran` field passed explicitly: returns the
call's outcome, the flag after the call, and how many times the inner unit was
invoked during the call.  If the flag is set, raise immediately; otherwise set
the flag first and then invoke the inner unit — so a failure of the inner unit
leaves the flag set. -/
def singleton_call {T : Type} (func : Unit → PyResult T) (ran : Bool) :
    PyResult T × Bool × Nat :=
  if ran then (.error alreadyExecuted, ran, 0)
  else (func (), true, 1)

/-- The `self.ran` flag after `n` sequential calls of the wrapper, starting
from its initial value `False` (deco.py line 186). -/
def singletonState {T : Type} (func : Unit → PyResult T) : Nat → Bool
  | 0 => false
  | n + 1 => (singleton_call func (singletonState func n)).2.1

/-- The (n+1)-th sequential call of the wrapper (0-based `n`): its outcome,
flag afterwards, and inner invocations during that call. -/
def singletonNth {T : Type} (func : Unit → PyResult T) (n : Nat) :
    PyResult T × Bool × Nat :=
  singleton_call func (singletonState func n)

/-- Total number of inner-unit invocations across the first `n` sequential
calls of the wrapper. -/
def singletonInvocations {T : Type} (func : Unit → PyResult T) : Nat → Nat
  | 0 => 0
  | n + 1 => singletonInvocations func n + (singletonNth func n).2.2

theorem singletonState_true {T : Type} (func : Unit → PyResult T) :
    ∀ n, 1 ≤ n → singletonState func n = true := by
  intro n hn
  induction n with
  | zero => omega
  | succ m ih =>
    by_cases hm : 1 ≤ m
    · simp [singletonState, singleton_call, ih hm]
    · have : m = 0 := by omega
      subst this
      simp [singletonState, singleton_call]

/-- C7: in a sequential sequence of calls, the first call finds the flag
false, sets it true, invokes the inner unit once and returns its outcome;
every subsequent call raises `AlreadyExecuted` without invoking the inner
unit. -/
theorem singleton_sequential_spec {T : Type} (func : Unit → PyResult T)
    (n : Nat) (hn : 1 ≤ n) :
    singletonNth func 0 = (func (), true, 1) ∧
    singletonNth func n = (.error alreadyExecuted, true, 0) := by
  constructor
  · simp [singletonNth, singletonState, singleton_call]
  · simp [singletonNth, singleton_call, singletonState_true func n hn]

/-- Witness for C7 at a concrete input: a unit returning `5`, first and second
sequential calls evaluated. -/
theorem singleton_sequential_spec_witness :
    singletonNth (fun _ => (.ok 5 : PyResult Nat)) 0 = (.ok 5, true, 1) ∧
    singletonNth (fun _ => (.ok 5 : PyResult Nat)) 1
      = (.error alreadyExecuted, true, 0) :=
  singleton_sequential_spec (fun _ => (.ok 5 : PyResult Nat)) 1 (by decide)

/-- C10: the flag is set before the inner unit is invoked and never rolled
back: if the first call's inner invocation raises, that failure propagates
with the flag left true, every subsequent call still raises `AlreadyExecuted`
without invoking the inner unit, and the total number of inner invocations
across any `m ≥ 1` sequential calls is exactly 1. -/
theorem singleton_no_rollback {T : Type} (func : Unit → PyResult T)
    (e : PyExc) (hfail : func () = .error e) (m : Nat) (hm : 1 ≤ m) :
    singletonNth func 0 = (.error e, true, 1) ∧
    singletonState func m = true ∧
    singletonInvocations func m = 1 ∧
    (∀ n, 1 ≤ n → singletonNth func n = (.error alreadyExecuted, true, 0)) := by
  have hlater : ∀ n, 1 ≤ n →
      singletonNth func n = (.error alreadyExecuted, true, 0) := by
    intro n hn
    simp [singletonNth, singleton_call, singletonState_true func n hn]
  refine ⟨?_, singletonState_true func m hm, ?_, hlater⟩
  · simp [singletonNth, singletonState, singleton_call, hfail]
  · induction m with
    | zero => omega
    | succ p ih =>
      by_cases hp : 1 ≤ p
      · simp [singletonInvocations, ih hp, hlater p hp]
      · have : p = 0 := by omega
        subst this
        simp [singletonInvocations, singletonNth, singletonState, singleton_call]

/-- Witness for C10 at a concrete input: an inner unit that always raises,
three sequential calls: the single (failing) invocation happens on the first
call and the invocation total stays 1. -/
theorem singleton_no_rollback_witness :
    singletonNth (fun _ => (.error (.exception "boom") : PyResult Nat)) 0
      = (.error (.exception "boom"), true, 1) ∧
    singletonState (fun _ => (.error (.exception "boom") : PyResult Nat)) 3 = true ∧
    singletonInvocations (fun _ => (.error (.exception "boom") : PyResult Nat)) 3 = 1 ∧
    (∀ n, 1 ≤ n →
      singletonNth (fun _ => (.error (.exception "boom") : PyResult Nat)) n
        = (.error alreadyExecuted, true, 0)) :=
  singleton_no_rollback (fun _ => (.error (.exception "boom") : PyResult Nat))
    (.exception "boom") rfl 3 (by decide)

/-! ## Singleton Guard under concurrency (C9, deco.py lines 188-192)

`Wrapper.__call__` runs `if self.ran: raise` and `self.ran = True` as separate,
unsynchronized operations (distinct bytecode instructions), so a thread switch
can occur between a caller's read of the flag and its write.  The model below
makes each call of two threads A and B a two-step program: step 1 atomically
reads `self.ran`; step 2 atomically acts on the value read — raise if it was
true, otherwise set the flag and invoke the inner unit.  (Making step 2 a
single atomic step is conservative: it only removes interleavings.) -/

/-- Shared and per-thread state of two concurrent calls of the singleton
wrapper: the shared `ran` flag, and for each thread its program counter
(0 = not yet checked, 1 = flag read, 2 = finished), the flag value it read,
how many times it invoked the inner unit, and whether it raised
`AlreadyExecuted`. -/
structure RaceState where
  ran : Bool
  pcA : Nat
  readA : Bool
  invA : Nat
  aeA : Bool
  pcB : Nat
  readB : Bool
  invB : Nat
  aeB : Bool
deriving DecidableEq, Repr

/-- Both calls at their start, flag initially false. -/
def initRace : RaceState :=
  ⟨false, 0, false, 0, false, 0, false, 0, false⟩

/-- One atomic step of thread A's call. -/
def stepA (s : RaceState) : RaceState :=
  match s.pcA with
  | 0 => { s with readA := s.ran, pcA := 1 }
  | 1 =>
    if s.readA then { s with aeA := true, pcA := 2 }
    else { s with ran := true, invA := s.invA + 1, pcA := 2 }
  | _ => s

/-- One atomic step of thread B's call. -/
def stepB (s : RaceState) : RaceState :=
  match s.pcB with
  | 0 => { s with readB := s.ran, pcB := 1 }
  | 1 =>
    if s.readB then { s with aeB := true, pcB := 2 }
    else { s with ran := true, invB := s.invB + 1, pcB := 2 }
  | _ => s

/-- Run the two calls under a schedule: `true` steps thread A, `false` steps
thread B. -/
def runSchedule : List Bool → RaceState → RaceState
  | [], s => s
  | t :: rest, s => runSchedule rest (if t then stepA s else stepB s)

/-- C9 fails on the code: under the schedule in which both threads read the
flag before either writes it, both calls observe `ran = false`, both invoke
the inner unit, and neither raises `AlreadyExecuted` — the check-then-set in
`Wrapper.__call__` is not atomic. -/
theorem singleton_race_both_invoke :
    (runSchedule [true, false, true, false] initRace).invA = 1 ∧
    (runSchedule [true, false, true, false] initRace).invB = 1 ∧
    (runSchedule [true, false, true, false] initRace).aeA = false ∧
    (runSchedule [true, false, true, false] initRace).aeB = false := by
  decide

/-! ## Deadline Guard (`timeout`, deco.py lines 196-219)

The wrapper installs a SIGALRM handler that raises `TimeoutError`, arms
`signal.alarm(seconds)`, invokes the inner unit, and in a `finally` block
disarms the alarm and restores the old handler.  The signal machinery is
modelled by giving the inner invocation an explicit wall-clock duration: the
alarm fires during the invocation exactly when `seconds` is positive
(`alarm(0)` arms nothing) and the invocation runs for at least `seconds`;
otherwise the invocation finishes first, the `finally` block disarms the alarm,
and the inner unit's result or exception propagates unchanged. -/

/-- An inner invocation together with the wall-clock time it needs: `elapsed`
seconds pass before it produces `outcome` (a value or a raised exception). -/
structure TimedRun (T : Type) where
  elapsed : Nat
  outcome : PyResult T
deriving Repr

/-- One call of the wrapper produced by `timeout seconds` on the timed inner
invocation `inner` (deco.py lines 207-217). -/
def timeout {T : Type} (seconds : Nat) (inner : TimedRun T) : PyResult T :=
  if 0 < seconds ∧ seconds ≤ inner.elapsed then
    .error (.timeoutError "The function timed out")
  else
    inner.outcome

/-- C5: with a positive duration, if the inner invocation completes strictly
before the deadline elapses, the guarded call returns the inner unit's result
unchanged — and in particular an inner failure before the deadline propagates
unchanged to the caller. -/
theorem timeout_completes_before_deadline {T : Type} (seconds : Nat)
    (hpos : 0 < seconds) (inner : TimedRun T)
    (hfast : inner.elapsed < seconds) :
    timeout seconds inner = inner.outcome ∧
    (∀ e : PyExc, inner.outcome = .error e → timeout seconds inner = .error e) := by
  have h : timeout seconds inner = inner.outcome := by
    simp [timeout, Nat.not_le_of_lt hfast]
  exact ⟨h, fun e he => h.trans he⟩

/-- Witness for C5 at concrete inputs: a 5-second deadline with a 1-second
inner invocation, once returning `42` and once raising. -/
theorem timeout_completes_before_deadline_witness :
    timeout 5 (TimedRun.mk 1 (.ok 42) : TimedRun Nat) = .ok 42 ∧
    timeout 5 (TimedRun.mk 1 (.error (.exception "boom")) : TimedRun Nat)
      = .error (.exception "boom") :=
  ⟨(timeout_completes_before_deadline 5 (by decide)
      (TimedRun.mk 1 (.ok 42) : TimedRun Nat) (by decide)).1,
   (timeout_completes_before_deadline 5 (by decide)
      (TimedRun.mk 1 (.error (.exception "boom")) : TimedRun Nat) (by decide)).1⟩

/-! ## Resource Guard (`max_memory`, deco.py lines 221-241) -/

/-- The process RLIMIT_AS pair `(soft, hard)` as returned by
`resource.getrlimit` (integers; `-1` is `RLIM_INFINITY`). -/
abbrev RLimit := Int × Int

/-- One call of the wrapper produced by `max_memory byte` (deco.py lines
232-239), with the process-wide limit passed explicitly.  The inner unit is a
state transformer on the limit (it may itself read or change the limit) that
produces a value or raises — including `MemoryError` when the installed
ceiling is crossed.  The wrapper reads `original_limit`, installs
`(byte, original_limit[1])`, invokes the inner unit, and in a `finally` block
restores `original_limit` on every exit path before the result or exception
propagates. -/
def max_memory {T : Type} (byte : Int)
    (func : RLimit → PyResult T × RLimit) (limits : RLimit) :
    PyResult T × RLimit :=
  let original_limit := limits
  let body := func (byte, original_limit.2)
  (body.1, original_limit)

/-- The ambient limit after a sequence of guarded calls, each with its own
ceiling and inner unit (the "100 repeated calls with varying ceilings" of the
spec's test property). -/
def max_memory_seq {T : Type}
    (calls : List (Int × (RLimit → PyResult T × RLimit))) (limits : RLimit) :
    RLimit :=
  match calls with
  | [] => limits
  | c :: rest => max_memory_seq rest (max_memory c.1 c.2 limits).2

/-- C4: for every byte ceiling and every outcome of the guarded invocation
(success, failure, or resource-exceeded — the inner unit is universally
quantified, so all outcomes are covered), the ambient limit after the call
equals the limit before it; the inner unit is invoked with the new ceiling
installed over the prior hard limit; and any sequence of guarded calls with
varying ceilings leaves the ambient limit unchanged. -/
theorem max_memory_restores {T : Type} (byte : Int)
    (func : RLimit → PyResult T × RLimit) (limits : RLimit)
    (calls : List (Int × (RLimit → PyResult T × RLimit))) :
    (max_memory byte func limits).2 = limits ∧
    (max_memory byte func limits).1 = (func (byte, limits.2)).1 ∧
    max_memory_seq calls limits = limits := by
  refine ⟨rfl, rfl, ?_⟩
  induction calls generalizing limits with
  | nil => rfl
  | cons c rest ih => exact (congrArg (max_memory_seq rest) rfl).trans (ih limits)

/-! ## Fan-Out Runner (`threaded`, deco.py lines 243-262)

The wrapper spawns `num_threads` threads, each running `func(*args, **kwargs)`
to completion, and joins them all before returning.  The inner unit is
modelled as an atomic action on a shared state (the claim's "properly
synchronized counter"); because each worker's entire effect is one atomic
action, every interleaving of the joined workers is the composition of
`num_threads` applications of that action, which the fold below computes. -/

/-- One call of the wrapper produced by `threaded num_threads`: each of the
`num_threads` spawned workers invokes the inner unit once with the same
arguments `args`, and all are joined before the call returns the final shared
state.  (The Python wrapper itself returns `None`; worker results are
discarded.) -/
def threaded {α σ : Type} (num_threads : Nat) (func : α → σ → σ)
    (args : α) (s : σ) : σ :=
  (List.replicate num_threads (func args)).foldl (fun st t => t st) s

/-- Instrument an atomic action with an invocation counter: each invocation
applies the action to the shared state and bumps the count. -/
def instrumented {α σ : Type} (act : α → σ → σ) : α → σ × Nat → σ × Nat :=
  fun a p => (act a p.1, p.2 + 1)

theorem threaded_foldl {α σ : Type} (num_threads : Nat) (func : α → σ → σ)
    (args : α) :
    ∀ s : σ, threaded num_threads func args s = (func args)^[num_threads] s := by
  induction num_threads with
  | zero => intro s; rfl
  | succ n ih =>
    intro s
    have h : threaded (n + 1) func args s = threaded n func args (func args s) := rfl
    rw [h, ih (func args s), ← Function.iterate_succ_apply]

/-- C6: for every worker count `n ≥ 1`, one call of the fanned-out unit
invokes the inner unit exactly `n` times with the same arguments before
returning: with the invocation-counting instrumentation, the shared state is
the `n`-fold iterate of the inner action and the counter equals exactly `n`
when the call returns. -/
theorem threaded_invokes_n_times {α σ : Type} (n : Nat) (hn : 1 ≤ n)
    (act : α → σ → σ) (args : α) (s : σ) :
    threaded n (instrumented act) args (s, 0) = ((act args)^[n] s, n) := by
  have key : ∀ (m : Nat) (st : σ) (c : Nat),
      (instrumented act args)^[m] (st, c) = ((act args)^[m] st, c + m) := by
    intro m
    induction m with
    | zero => intro st c; simp
    | succ p ih =>
      intro st c
      rw [Function.iterate_succ_apply, Function.iterate_succ_apply]
      show (instrumented act args)^[p] (act args st, c + 1) = _
      rw [ih (act args st) (c + 1)]
      exact congrArg _ (by omega)
  rw [threaded_foldl, key n s 0, Nat.zero_add]

/-- Witness for C6 at a concrete input: `n = 8` workers each incrementing a
shared counter once; the counter and the invocation count both equal 8 when
the call returns. -/
theorem threaded_invokes_n_times_witness :
    threaded 8 (instrumented (fun (_ : Unit) (c : Nat) => c + 1)) () (0, 0)
      = (8, 8) :=
  (threaded_invokes_n_times 8 (by decide)
      (fun (_ : Unit) (c : Nat) => c + 1) () 0).trans (by decide)

/-! ## Wrap-time configuration validation (C8)

No decorator in `deco.py` validates its numeric configuration: there is no
check on `runs` in `retry_on_failure`, on `seconds` in `timeout`, on `byte` in
`max_memory`, or on `num_threads` in `threaded`, and no `ConfigurationError`
exists anywhere in the module.  In particular `retry_on_failure(0)` wraps
successfully and its wrapper, when called, runs `for i in range(0)` — zero
attempts — and falls off the end returning `None` with no failure, and
`threaded(0)` wraps successfully and its wrapper spawns zero workers. -/

/-- C8 fails on the code: wrapping with `runs = 0` does not report any
configuration failure — the wrapper is produced, a call of it makes zero
attempts of the inner unit and silently returns `None` (even though the inner
unit always fails), and `threaded` with `n = 0` likewise wraps successfully
and invokes the inner unit zero times. -/
theorem no_wrap_time_validation :
    retry_on_failure 0 (fun _ => (.error (.exception "boom") : PyResult Nat))
      = .ok none ∧
    retryInvocations 0 (fun _ => (.error (.exception "boom") : PyResult Nat)) = 0 ∧
    threaded 0 (instrumented (fun (_ : Unit) (c : Nat) => c + 1)) () (0, 0)
      = (0, 0) := by
  refine ⟨rfl, rfl, rfl⟩
